import Mathlib

/-!
# ISO_Fortran_binding.h: descriptor layout, status codes and the CFI operations

A verification development over `flang/include/flang/ISO_Fortran_binding.h`.

* Part 1 embeds what the header itself contains: the typedefs, the status-code
  macros, the member lists of `CFI_dim_t`, `CFI_cdesc_t` and `CFI_CDESC_T`, the
  `CdescStorage` template with its `static_assert`, and the list of declared
  procedural interfaces.
* Part 2 models the operations whose bodies the header only declares
  (`CFI_address`, `CFI_allocate`, `CFI_deallocate`, `CFI_section`).
-/

namespace ISOFortranBinding

/-! ## Part 1: the header -/

/-- Object types that occur in the header's declarations. -/
inductive CType where
  /-- The type `void *` -/
  | voidPtr
  /-- The type `size_t` -/
  | size_t
  /-- The type `int` -/
  | int
  /-- The type `unsigned char` -/
  | unsignedChar
  /-- The type `signed char` -/
  | signedChar
  /-- The type `ptrdiff_t` -/
  | ptrdiff_t
  /-- The type `struct CFI_dim_t` -/
  | CFI_dim_t
  /-- The type `T x[n]` -/
  | array (elem : CType) (n : Nat)
  /-- The type `T x[]`, a C flexible array member -/
  | incompleteArray (elem : CType)
  /-- The type `cfi_internal::FlexibleArray<T>`: `struct FlexibleArray : T` without data members -/
  | FlexibleArray (T : CType)
deriving DecidableEq, Repr

/-- Typedef `typedef unsigned char CFI_rank_t;` -/
abbrev CFI_rank_t : CType := CType.unsignedChar

/-- Typedef `typedef ptrdiff_t CFI_index_t;` -/
abbrev CFI_index_t : CType := CType.ptrdiff_t

/-- Typedef `typedef unsigned char CFI_attribute_t;` -/
abbrev CFI_attribute_t : CType := CType.unsignedChar

/-- Typedef `typedef signed char CFI_type_t;` -/
abbrev CFI_type_t : CType := CType.signedChar

/-- Size in bytes of an object of the given type, for a target whose pointers,
`size_t` and `ptrdiff_t` take `word` bytes and whose `int` takes `intBytes`
bytes.  The character types take one byte on every target. -/
def CType.sizeof (word intBytes : Nat) : CType → Nat
  | .voidPtr => word
  | .size_t => word
  | .int => intBytes
  | .unsignedChar => 1
  | .signedChar => 1
  | .ptrdiff_t => word
  | .CFI_dim_t => 3 * word
  | .array elem n => n * CType.sizeof word intBytes elem
  | .incompleteArray _ => 0
  | .FlexibleArray T => CType.sizeof word intBytes T

/-- Signedness of the integer types (`none` for the others). -/
def CType.isSigned : CType → Option Bool
  | .size_t => some false
  | .int => some true
  | .unsignedChar => some false
  | .signedChar => some true
  | .ptrdiff_t => some true
  | _ => none

/-- Number of `CFI_dim_t` objects for which an object of the given type holds
storage.  A flexible array member holds none; `FlexibleArray<T>` is a `T`, so
it "already contains one element". -/
def CType.dimEntries : CType → Nat
  | .CFI_dim_t => 1
  | .array elem n => n * CType.dimEntries elem
  | .incompleteArray _ => 0
  | .FlexibleArray T => CType.dimEntries T
  | _ => 0

/-- One data member of a struct: its name and its type. -/
structure Member where
  name : String
  type : CType
deriving DecidableEq, Repr

/-- Number of `CFI_dim_t` objects stored in a struct with the given members. -/
def dimEntries (members : List Member) : Nat :=
  (members.map (fun m => m.type.dimEntries)).sum

/-- Member names in declaration order. -/
def memberNames (members : List Member) : List String :=
  members.map (fun m => m.name)

/-- The type of the member called `n`, if there is one. -/
def memberType (members : List Member) (n : String) : Option CType :=
  (members.find? (fun m => m.name == n)).map (fun m => m.type)

/-- The value `CFI_MAX_RANK` has after
`#if !defined CFI_MAX_RANK || !defined __OVERRIDE_CFI_MAX_RANK` /
`#define CFI_MAX_RANK 15` / `#endif`: `predefined` is the value the macro had
before the header was read (if any), `overrideDefined` tells whether
`__OVERRIDE_CFI_MAX_RANK` is defined. -/
def CFI_MAX_RANK (predefined : Option Int) (overrideDefined : Bool) : Int :=
  match predefined, overrideDefined with
  | some m, true => m
  | _, _ => 15

/-- Macro `#define CFI_VERSION 20240719` -/
def CFI_VERSION : Int := 20240719

/-- Macro `#define CFI_attribute_allocatable 2` -/
def CFI_attribute_allocatable : Nat := 2
/-- Macro `#define CFI_attribute_other 0` -/
def CFI_attribute_other : Nat := 0

/-- Macro `#define CFI_type_double 28` -/
def CFI_type_double : Int := 28

/-- Macro `#define CFI_SUCCESS 0` -/
def CFI_SUCCESS : Int := 0
/-- Macro `#define CFI_ERROR_BASE_ADDR_NULL 11` -/
def CFI_ERROR_BASE_ADDR_NULL : Int := 11
/-- Macro `#define CFI_ERROR_BASE_ADDR_NOT_NULL 12` -/
def CFI_ERROR_BASE_ADDR_NOT_NULL : Int := 12
/-- Macro `#define CFI_INVALID_ELEM_LEN 13` -/
def CFI_INVALID_ELEM_LEN : Int := 13
/-- Macro `#define CFI_INVALID_RANK 14` -/
def CFI_INVALID_RANK : Int := 14
/-- Macro `#define CFI_INVALID_TYPE 15` -/
def CFI_INVALID_TYPE : Int := 15
/-- Macro `#define CFI_INVALID_ATTRIBUTE 16` -/
def CFI_INVALID_ATTRIBUTE : Int := 16
/-- Macro `#define CFI_INVALID_EXTENT 17` -/
def CFI_INVALID_EXTENT : Int := 17
/-- Macro `#define CFI_INVALID_DESCRIPTOR 18` -/
def CFI_INVALID_DESCRIPTOR : Int := 18
/-- Macro `#define CFI_ERROR_MEM_ALLOCATION 19` -/
def CFI_ERROR_MEM_ALLOCATION : Int := 19
/-- Macro `#define CFI_ERROR_OUT_OF_BOUNDS 20` -/
def CFI_ERROR_OUT_OF_BOUNDS : Int := 20

/-- The error-code macros of the header, in the order they are defined. -/
def errorCodes : List Int :=
  [CFI_ERROR_BASE_ADDR_NULL, CFI_ERROR_BASE_ADDR_NOT_NULL, CFI_INVALID_ELEM_LEN,
   CFI_INVALID_RANK, CFI_INVALID_TYPE, CFI_INVALID_ATTRIBUTE, CFI_INVALID_EXTENT,
   CFI_INVALID_DESCRIPTOR, CFI_ERROR_MEM_ALLOCATION, CFI_ERROR_OUT_OF_BOUNDS]

/-- Every status-code macro of the header: `CFI_SUCCESS` and the error codes. -/
def statusCodes : List Int := CFI_SUCCESS :: errorCodes

/-- The failure kinds named by the error taxonomy. -/
inductive FailureKind where
  | BaseAddrNull | BaseAddrNotNull | InvalidElemLen | InvalidRank | InvalidType
  | InvalidAttribute | InvalidExtent | InvalidDescriptor | MemAllocation | OutOfBounds
deriving DecidableEq, Repr

/-- The header macro that stands for each failure kind. -/
def FailureKind.code : FailureKind → Int
  | .BaseAddrNull => CFI_ERROR_BASE_ADDR_NULL
  | .BaseAddrNotNull => CFI_ERROR_BASE_ADDR_NOT_NULL
  | .InvalidElemLen => CFI_INVALID_ELEM_LEN
  | .InvalidRank => CFI_INVALID_RANK
  | .InvalidType => CFI_INVALID_TYPE
  | .InvalidAttribute => CFI_INVALID_ATTRIBUTE
  | .InvalidExtent => CFI_INVALID_EXTENT
  | .InvalidDescriptor => CFI_INVALID_DESCRIPTOR
  | .MemAllocation => CFI_ERROR_MEM_ALLOCATION
  | .OutOfBounds => CFI_ERROR_OUT_OF_BOUNDS

namespace Layout

/-- Members of `struct CFI_dim_t`. -/
def CFI_dim_t : List Member :=
  [⟨"lower_bound", CFI_index_t⟩, ⟨"extent", CFI_index_t⟩, ⟨"sm", CFI_index_t⟩]

/-- The macro `_CFI_CDESC_T_HEADER_MEMBERS`. -/
def _CFI_CDESC_T_HEADER_MEMBERS : List Member :=
  [⟨"base_addr", CType.voidPtr⟩, ⟨"elem_len", CType.size_t⟩, ⟨"version", CType.int⟩,
   ⟨"rank", CFI_rank_t⟩, ⟨"type", CFI_type_t⟩, ⟨"attribute", CFI_attribute_t⟩,
   ⟨"extra", CType.unsignedChar⟩]

/-- Members of `struct CFI_cdesc_t`; `cplusplus` tells whether `__cplusplus` is
defined. -/
def CFI_cdesc_t (cplusplus : Bool) : List Member :=
  _CFI_CDESC_T_HEADER_MEMBERS ++
    (if cplusplus then [⟨"dim", CType.FlexibleArray CType.CFI_dim_t⟩]
     else [⟨"dim", CType.incompleteArray CType.CFI_dim_t⟩])

/-- Members that `cfi_internal::CdescStorage<r>` declares itself, on top of its
base class `CFI_cdesc_t`; an error carries the message of the `static_assert`
that fired.  The explicit specialisations for 1 and 0 have an empty body; the
primary template asserts `r > 1 && r <= CFI_MAX_RANK` and declares
`CFI_dim_t dim[r - 1]`. -/
def CdescStorage (maxRank : Int) (r : Int) : Except String (List Member) :=
  if r = 1 then Except.ok []
  else if r = 0 then Except.ok []
  else if r > 1 ∧ r ≤ maxRank then
    Except.ok [⟨"dim", CType.array CType.CFI_dim_t (r - 1).toNat⟩]
  else Except.error "CFI_INVALID_RANK"

/-- All members of an object of type `CdescStorage<r>` (the C++ `CFI_CDESC_T(r)`):
those of the base class `CFI_cdesc_t`, then its own. -/
def CdescStorage.members (maxRank : Int) (r : Int) : Except String (List Member) :=
  (CdescStorage maxRank r).map (fun own => CFI_cdesc_t true ++ own)

/-- Members of the anonymous struct the C definition of `CFI_CDESC_T(_RANK)`
expands to. -/
def CFI_CDESC_T (_RANK : Nat) : List Member :=
  _CFI_CDESC_T_HEADER_MEMBERS ++ [⟨"dim", CType.array CType.CFI_dim_t _RANK⟩]

end Layout

/-- A function declaration: return type, name and parameter declarations. -/
structure FunctionDecl where
  returnType : String
  name : String
  params : List String
deriving DecidableEq, Repr

/-- The declarations of section "18.5.5 procedural interfaces", in order. -/
def proceduralInterfaces : List FunctionDecl :=
  [⟨"void *", "CFI_address", ["const CFI_cdesc_t *", "const CFI_index_t subscripts[]"]⟩,
   ⟨"int", "CFI_allocate",
     ["CFI_cdesc_t *", "const CFI_index_t lower_bounds[]",
      "const CFI_index_t upper_bounds[]", "size_t elem_len"]⟩,
   ⟨"int", "CFI_deallocate", ["CFI_cdesc_t *"]⟩,
   ⟨"int", "CFI_establish",
     ["CFI_cdesc_t *", "void *base_addr", "CFI_attribute_t", "CFI_type_t",
      "size_t elem_len", "CFI_rank_t", "const CFI_index_t extents[]"]⟩,
   ⟨"int", "CFI_is_contiguous", ["const CFI_cdesc_t *"]⟩,
   ⟨"int", "CFI_section",
     ["CFI_cdesc_t *", "const CFI_cdesc_t *source", "const CFI_index_t lower_bounds[]",
      "const CFI_index_t upper_bounds[]", "const CFI_index_t strides[]"]⟩,
   ⟨"int", "CFI_select_part",
     ["CFI_cdesc_t *", "const CFI_cdesc_t *source", "size_t displacement",
      "size_t elem_len"]⟩,
   ⟨"int", "CFI_setpointer",
     ["CFI_cdesc_t *", "const CFI_cdesc_t *source", "const CFI_index_t lower_bounds[]"]⟩]

/-! ## Part 2: the operations

The header declares the operations and leaves their bodies to the runtime, so
each body below follows the wording of the design specification.  An array
parameter such as `const CFI_index_t subscripts[]` is a function from the index
to the element; an address is an integer and the null pointer is 0; arithmetic
is over the integers, as in the specification's formulas.  A member that the
specification does not say an operation writes keeps its value. -/

/-- Run-time value of a `CFI_dim_t`. -/
structure CFI_dim_t where
  lower_bound : Int
  extent : Int
  sm : Int
deriving DecidableEq, Repr

/-- Run-time value of a `CFI_cdesc_t`: the header members in their declared
order, then the dimension entries (`attribute_` is the member `attribute`,
a reserved word here). -/
structure CFI_cdesc_t where
  base_addr : Int
  elem_len : Nat
  version : Int
  rank : Nat
  type : Int
  attribute_ : Nat
  extra : Nat
  dim : List CFI_dim_t
deriving DecidableEq, Repr

/-- The entry `descriptor->dim[i]` (all zero when the descriptor has no such entry). -/
def CFI_cdesc_t.dimAt (descriptor : CFI_cdesc_t) (i : Nat) : CFI_dim_t :=
  descriptor.dim.getD i ⟨0, 0, 0⟩

/-- Modelled from the spec: the loop of `CFI_address`, whose body is not in the
header.  Walks the dimension entries from index `j` on and adds
`(subscript_j - lower_bound_j) * stride_bytes_j` to the running address `p`. -/
def addressLoop (subscripts : Nat → Int) : List CFI_dim_t → Nat → Int → Int
  | [], _, p => p
  | d :: ds, j, p =>
    addressLoop subscripts ds (j + 1) (p + (subscripts j - d.lower_bound) * d.sm)

/-- Modelled from the spec: the body of `CFI_address`, which the header only
declares.  "result = base_address + Σ (subscript_i − lower_bound_i) ×
stride_bytes_i.  Fails with InvalidDescriptor if the descriptor is
unassociated."  No subscript is checked against the bounds. -/
def CFI_address (descriptor : CFI_cdesc_t) (subscripts : Nat → Int) : Except Int Int :=
  if descriptor.base_addr = 0 then Except.error CFI_INVALID_DESCRIPTOR
  else Except.ok
    (addressLoop subscripts (descriptor.dim.take descriptor.rank) 0 descriptor.base_addr)

/-- Modelled from the spec: the dimension loop of `CFI_allocate`, whose body is
not in the header.  Writes `n` entries starting at index `j`, with
`extent = max(upper − lower + 1, 0)`; `sm` is the stride of entry `j`
("stride_0 = element_length, stride_i = stride_{i-1} × extent_{i-1}"). -/
def allocateDims (lower_bounds upper_bounds : Nat → Int) : Nat → Nat → Int → List CFI_dim_t
  | 0, _, _ => []
  | n + 1, j, sm =>
    let extent := max (upper_bounds j - lower_bounds j + 1) 0
    ⟨lower_bounds j, extent, sm⟩ ::
      allocateDims lower_bounds upper_bounds n (j + 1) (sm * extent)

/-- Modelled from the spec: number of bytes `CFI_allocate` asks its allocator
for, "element_length × Π extent_i" over the entries just computed. -/
def allocateBytes (elem_len : Nat) (dims : List CFI_dim_t) : Nat :=
  elem_len * ((dims.map CFI_dim_t.extent).prod).toNat

/-- Modelled from the spec: the body of `CFI_allocate`, which the header only
declares.  `allocator tag size` is the allocator capability selected by the
descriptor's `extra` byte; it returns the block's address, or null (0) when it
fails.  `permitsZeroLen type` tells whether the type tag permits a zero element
length.  Returns the status and the descriptor after the call. -/
def CFI_allocate (permitsZeroLen : Int → Bool) (allocator : Nat → Nat → Int)
    (descriptor : CFI_cdesc_t) (lower_bounds upper_bounds : Nat → Int) (elem_len : Nat) :
    Int × CFI_cdesc_t :=
  if descriptor.base_addr ≠ 0 then (CFI_ERROR_BASE_ADDR_NOT_NULL, descriptor)
  else if descriptor.attribute_ ≠ CFI_attribute_allocatable then
    (CFI_INVALID_ATTRIBUTE, descriptor)
  else if elem_len = 0 ∧ permitsZeroLen descriptor.type = false then
    (CFI_INVALID_ELEM_LEN, descriptor)
  else
    let dims := allocateDims lower_bounds upper_bounds descriptor.rank 0 elem_len
    let p := allocator descriptor.extra (allocateBytes elem_len dims)
    if p = 0 then (CFI_ERROR_MEM_ALLOCATION, descriptor)
    else (CFI_SUCCESS, { descriptor with base_addr := p, dim := dims })

/-- Modelled from the spec: the body of `CFI_deallocate`, which the header only
declares.  "Requires base_address non-null and attribute = owning-allocatable;
otherwise BaseAddrNull / InvalidAttribute.  Releases the storage block via the
registered allocator and sets base_address = null"; the dimension values are
zeroed.  Returns the status, the descriptor after the call, and the allocator
tag and block handed to `release` (if any). -/
def CFI_deallocate (descriptor : CFI_cdesc_t) : Int × CFI_cdesc_t × Option (Nat × Int) :=
  if descriptor.base_addr = 0 then (CFI_ERROR_BASE_ADDR_NULL, descriptor, none)
  else if descriptor.attribute_ ≠ CFI_attribute_allocatable then
    (CFI_INVALID_ATTRIBUTE, descriptor, none)
  else
    (CFI_SUCCESS,
     { descriptor with base_addr := 0, dim := descriptor.dim.map (fun _ => ⟨0, 0, 0⟩) },
     some (descriptor.extra, descriptor.base_addr))

/-- Subscripts, bounds or strides given as a list (index `i` reads element `i`). -/
def ofList (xs : List Int) : Nat → Int := fun i => xs.getD i 0

/-! ### The descriptors of the worked scenarios -/

/-- Scenario A before the call: an unassociated allocatable descriptor of rank 2. -/
def scenarioA_unallocated : CFI_cdesc_t :=
  ⟨0, 8, CFI_VERSION, 2, CFI_type_double, CFI_attribute_allocatable, 0,
   [⟨0, 0, 0⟩, ⟨0, 0, 0⟩]⟩

/-- An allocator that places a block of `size` bytes at address `1000 + size`. -/
def scenarioAllocator : Nat → Nat → Int := fun _ size => 1000 + (size : Int)

/-- Scenario A after the call: lower bounds (1,1), extents (3,4), strides (8,24). -/
def scenarioA_allocated : CFI_cdesc_t :=
  ⟨1096, 8, CFI_VERSION, 2, CFI_type_double, CFI_attribute_allocatable, 0,
   [⟨1, 3, 8⟩, ⟨1, 4, 24⟩]⟩

/-- The `static_assert` of `CdescStorage<r>` stays silent exactly for
`0 ≤ r ≤ maxRank`, provided `maxRank` is at least 1. -/
theorem CdescStorage_isOk_iff (maxRank r : Int) (hM : 1 ≤ maxRank) :
    (Layout.CdescStorage maxRank r).isOk = true ↔ 0 ≤ r ∧ r ≤ maxRank := by
  unfold Layout.CdescStorage
  by_cases h1 : r = 1
  · subst h1; simp [Except.isOk, Except.toBool, hM]
  · by_cases h0 : r = 0
    · subst h0; simp [Except.isOk, Except.toBool]; omega
    · by_cases h : r > 1 ∧ r ≤ maxRank
      · simp [h1, h0, h, Except.isOk, Except.toBool]; omega
      · simp only [h1, h0, h, if_false, Except.isOk, Except.toBool]
        constructor
        · intro hf; cases hf
        · intro hr; exact absurd ⟨by omega, hr.2⟩ h

/-- C1: the header-member macro lists base_addr, elem_len, version, rank, type,
attribute, extra in this order; `CFI_cdesc_t` (C and C++) and the C
`CFI_CDESC_T` consist of exactly these members followed by the member `dim`,
whose elements are `CFI_dim_t`; rank, type, attribute and extra take one byte
on every target, type being signed and the other three unsigned; `CFI_dim_t`
is lower_bound, extent, sm in this order, each a `CFI_index_t`, that is
`ptrdiff_t`. -/
theorem C1_descriptor_member_order :
    memberNames Layout._CFI_CDESC_T_HEADER_MEMBERS
        = ["base_addr", "elem_len", "version", "rank", "type", "attribute", "extra"]
    ∧ (∀ cplusplus : Bool, memberNames (Layout.CFI_cdesc_t cplusplus)
        = ["base_addr", "elem_len", "version", "rank", "type", "attribute", "extra", "dim"])
    ∧ (∀ _RANK : Nat, memberNames (Layout.CFI_CDESC_T _RANK)
        = ["base_addr", "elem_len", "version", "rank", "type", "attribute", "extra", "dim"])
    ∧ (∀ cplusplus : Bool,
        (Layout.CFI_cdesc_t cplusplus).take 7 = Layout._CFI_CDESC_T_HEADER_MEMBERS)
    ∧ (∀ _RANK : Nat,
        (Layout.CFI_CDESC_T _RANK).take 7 = Layout._CFI_CDESC_T_HEADER_MEMBERS)
    ∧ memberType (Layout.CFI_cdesc_t true) "dim" = some (CType.FlexibleArray CType.CFI_dim_t)
    ∧ memberType (Layout.CFI_cdesc_t false) "dim" = some (CType.incompleteArray CType.CFI_dim_t)
    ∧ (∀ _RANK : Nat, memberType (Layout.CFI_CDESC_T _RANK) "dim"
        = some (CType.array CType.CFI_dim_t _RANK))
    ∧ (∀ word intBytes : Nat,
        (memberType Layout._CFI_CDESC_T_HEADER_MEMBERS "rank").map (CType.sizeof word intBytes)
          = some 1
        ∧ (memberType Layout._CFI_CDESC_T_HEADER_MEMBERS "type").map
            (CType.sizeof word intBytes) = some 1
        ∧ (memberType Layout._CFI_CDESC_T_HEADER_MEMBERS "attribute").map
            (CType.sizeof word intBytes) = some 1
        ∧ (memberType Layout._CFI_CDESC_T_HEADER_MEMBERS "extra").map
            (CType.sizeof word intBytes) = some 1)
    ∧ (memberType Layout._CFI_CDESC_T_HEADER_MEMBERS "rank").bind CType.isSigned = some false
    ∧ (memberType Layout._CFI_CDESC_T_HEADER_MEMBERS "type").bind CType.isSigned = some true
    ∧ (memberType Layout._CFI_CDESC_T_HEADER_MEMBERS "attribute").bind CType.isSigned
        = some false
    ∧ (memberType Layout._CFI_CDESC_T_HEADER_MEMBERS "extra").bind CType.isSigned = some false
    ∧ memberNames Layout.CFI_dim_t = ["lower_bound", "extent", "sm"]
    ∧ Layout.CFI_dim_t.map (fun m => m.type) = [CFI_index_t, CFI_index_t, CFI_index_t]
    ∧ CFI_index_t = CType.ptrdiff_t := by
  refine ⟨by decide, by decide, ?_, by decide, ?_, by decide, by decide, ?_, ?_,
    by decide, by decide, by decide, by decide, by decide, by decide, rfl⟩
  · intro n; rfl
  · intro n; rfl
  · intro n; rfl
  · intro w i; exact ⟨rfl, rfl, rfl, rfl⟩

/-- C2 (as stated, refuted): with the default `CFI_MAX_RANK`, `CdescStorage<0>`
holds one dimension entry, not zero, so the C++ storage type does not hold
exactly `r` entries for every `0 ≤ r ≤ 15`; and the C `CFI_CDESC_T(1)` holds
one entry more than the C `CFI_cdesc_t`. -/
theorem C2_rank_zero_has_one_entry :
    ¬ (∀ r : Nat, r ≤ 15 →
        (Layout.CdescStorage.members (CFI_MAX_RANK none false) (r : Int)).map dimEntries
          = Except.ok r)
    ∧ (Layout.CdescStorage.members (CFI_MAX_RANK none false) 0).map dimEntries = Except.ok 1
    ∧ dimEntries (Layout.CFI_CDESC_T 1) = dimEntries (Layout.CFI_cdesc_t false) + 1 := by
  have h1 : (Layout.CdescStorage.members (CFI_MAX_RANK none false) 0).map dimEntries
      = Except.ok 1 := rfl
  refine ⟨?_, h1, by decide⟩
  intro h
  have h0 := h 0 (by decide)
  have h2 : (Except.ok 1 : Except String Nat) = Except.ok 0 := h1.symm.trans h0
  exact absurd (Except.ok.inj h2) (by decide)

/-- C2 (amended): for every rank `r ≤ 15` and no override of `CFI_MAX_RANK`, the
C `CFI_CDESC_T(r)` is the header members followed by `dim[r]` and holds exactly
`r` dimension entries; the C++ `CdescStorage<r>` is accepted, consists of the
members of `CFI_cdesc_t` (header members, then one `FlexibleArray` entry)
followed by its own members, and holds exactly `max r 1` entries; and the
specialisations for ranks 0 and 1 declare no member of their own. -/
theorem C2_storage_entries (predefined : Option Int) (r : Nat) (hr : r ≤ 15) :
    Layout.CFI_CDESC_T r
        = Layout._CFI_CDESC_T_HEADER_MEMBERS ++ [⟨"dim", CType.array CType.CFI_dim_t r⟩]
    ∧ dimEntries (Layout.CFI_CDESC_T r) = r
    ∧ (∃ own : List Member,
        Layout.CdescStorage (CFI_MAX_RANK predefined false) (r : Int) = Except.ok own
        ∧ Layout.CdescStorage.members (CFI_MAX_RANK predefined false) (r : Int)
            = Except.ok (Layout._CFI_CDESC_T_HEADER_MEMBERS
                ++ [⟨"dim", CType.FlexibleArray CType.CFI_dim_t⟩] ++ own)
        ∧ dimEntries own = r - 1
        ∧ dimEntries (Layout.CFI_cdesc_t true ++ own) = max r 1)
    ∧ Layout.CdescStorage (CFI_MAX_RANK predefined false) 0 = Except.ok []
    ∧ Layout.CdescStorage (CFI_MAX_RANK predefined false) 1 = Except.ok [] := by
  have hM : CFI_MAX_RANK predefined false = 15 := by
    cases predefined <;> rfl
  refine ⟨rfl, ?_, ?_, rfl, rfl⟩
  · simp [dimEntries, Layout.CFI_CDESC_T, Layout._CFI_CDESC_T_HEADER_MEMBERS,
      CType.dimEntries]
  · rw [hM]
    rcases Nat.lt_or_ge r 2 with h2 | h2
    · refine ⟨[], ?_, ?_, ?_, ?_⟩
      · interval_cases r <;> rfl
      · interval_cases r <;> rfl
      · interval_cases r <;> rfl
      · interval_cases r <;> decide
    · have hne1 : ¬ ((r : Int) = 1) := by omega
      have hne0 : ¬ ((r : Int) = 0) := by omega
      have hin : (r : Int) > 1 ∧ (r : Int) ≤ 15 := by omega
      have hown : Layout.CdescStorage 15 (r : Int)
          = Except.ok [⟨"dim", CType.array CType.CFI_dim_t (r - 1)⟩] := by
        unfold Layout.CdescStorage
        rw [if_neg hne1, if_neg hne0, if_pos hin]
        have : ((r : Int) - 1).toNat = r - 1 := by omega
        rw [this]
      refine ⟨_, hown, ?_, ?_, ?_⟩
      · unfold Layout.CdescStorage.members
        rw [hown]
        rfl
      · simp [dimEntries, CType.dimEntries]
      · simp [dimEntries, Layout.CFI_cdesc_t, Layout._CFI_CDESC_T_HEADER_MEMBERS,
          CType.dimEntries]
        omega

/-- C2 (amended), at rank 3: `CFI_CDESC_T(3)` holds three entries in C, and in
C++ one from the base class plus two of its own. -/
theorem C2_storage_entries_witness :
    (3 : Nat) ≤ 15
    ∧ dimEntries (Layout.CFI_CDESC_T 3) = 3
    ∧ (∃ own : List Member,
        Layout.CdescStorage (CFI_MAX_RANK none false) ((3 : Nat) : Int) = Except.ok own
        ∧ Layout.CdescStorage.members (CFI_MAX_RANK none false) ((3 : Nat) : Int)
            = Except.ok (Layout._CFI_CDESC_T_HEADER_MEMBERS
                ++ [⟨"dim", CType.FlexibleArray CType.CFI_dim_t⟩] ++ own)
        ∧ dimEntries own = 3 - 1
        ∧ dimEntries (Layout.CFI_cdesc_t true ++ own) = max 3 1) :=
  ⟨by decide, (C2_storage_entries none 3 (by decide)).2.1,
    (C2_storage_entries none 3 (by decide)).2.2.1⟩

/-- C7: `CFI_SUCCESS` is 0; the ten error codes are pairwise distinct and none
is 0, so among the status codes success is the one that equals 0; and the ten
failure kinds of the taxonomy map one-to-one onto the ten error codes. -/
theorem C7_status_codes :
    CFI_SUCCESS = 0
    ∧ errorCodes.length = 10
    ∧ errorCodes.Nodup
    ∧ statusCodes.Nodup
    ∧ errorCodes.all (fun c => decide (c ≠ 0)) = true
    ∧ (∀ s : Int, s = CFI_SUCCESS ↔ s = 0)
    ∧ statusCodes.filter (fun c => decide (c = 0)) = [CFI_SUCCESS]
    ∧ Function.Injective FailureKind.code
    ∧ (∀ k : FailureKind, k.code ≠ CFI_SUCCESS)
    ∧ [FailureKind.BaseAddrNull, FailureKind.BaseAddrNotNull, FailureKind.InvalidElemLen,
        FailureKind.InvalidRank, FailureKind.InvalidType, FailureKind.InvalidAttribute,
        FailureKind.InvalidExtent, FailureKind.InvalidDescriptor, FailureKind.MemAllocation,
        FailureKind.OutOfBounds].map FailureKind.code = errorCodes := by
  refine ⟨rfl, rfl, by decide, by decide, by decide, ?_, by decide, ?_, ?_, rfl⟩
  · intro s; rfl
  · intro a b h
    cases a <;> cases b <;> first | rfl | (revert h; decide)
  · intro k
    cases k <;> decide

/-- C8 (as stated, refuted): the procedural interface does not consist of seven
declarations. -/
theorem C8_not_seven_operations : ¬ (proceduralInterfaces.length = 7) := by
  decide

/-- C8 (amended): the procedural interface consists of exactly eight
declarations, `CFI_address`, `CFI_allocate`, `CFI_deallocate`, `CFI_establish`,
`CFI_is_contiguous`, `CFI_section`, `CFI_select_part` and `CFI_setpointer`, in
this order, and of no other. -/
theorem C8_eight_operations :
    proceduralInterfaces.map (fun f => f.name)
        = ["CFI_address", "CFI_allocate", "CFI_deallocate", "CFI_establish",
           "CFI_is_contiguous", "CFI_section", "CFI_select_part", "CFI_setpointer"]
    ∧ proceduralInterfaces.length = 8
    ∧ (proceduralInterfaces.map (fun f => f.name)).Nodup := by
  refine ⟨rfl, rfl, by decide⟩

/-- C10: when `CFI_MAX_RANK` is not overridden it is 15, and for every integer
`r` the storage type `CdescStorage<r>` is accepted if and only if
`0 ≤ r ≤ CFI_MAX_RANK`; it is rejected with the message `CFI_INVALID_RANK`
exactly when `r < 0` or `r > 15`; ranks 0 and 1 are accepted through the
explicit specialisations, every other accepted rank satisfies the primary
template's assertion `r > 1 && r <= CFI_MAX_RANK`. -/
theorem C10_storage_accepted_iff (predefined : Option Int) (r : Int) :
    CFI_MAX_RANK predefined false = 15
    ∧ ((Layout.CdescStorage (CFI_MAX_RANK predefined false) r).isOk = true
        ↔ 0 ≤ r ∧ r ≤ CFI_MAX_RANK predefined false)
    ∧ (Layout.CdescStorage (CFI_MAX_RANK predefined false) r
          = Except.error "CFI_INVALID_RANK" ↔ r < 0 ∨ 15 < r)
    ∧ ((Layout.CdescStorage (CFI_MAX_RANK predefined false) r).isOk = true
        ↔ r = 0 ∨ r = 1 ∨ (r > 1 ∧ r ≤ CFI_MAX_RANK predefined false)) := by
  have hM : CFI_MAX_RANK predefined false = 15 := by
    cases predefined <;> rfl
  rw [hM]
  have hiff := CdescStorage_isOk_iff 15 r (by decide)
  refine ⟨rfl, hiff, ?_, ?_⟩
  · unfold Layout.CdescStorage
    by_cases h1 : r = 1
    · subst h1; simp
    · by_cases h0 : r = 0
      · subst h0; simp
      · by_cases h : r > 1 ∧ r ≤ 15
        · simp only [h1, h0, h, if_false, if_true]
          constructor
          · intro hf; cases hf
          · intro hr; omega
        · simp only [h1, h0, h, if_false, true_iff]
          omega
  · rw [hiff]; omega


/-! ## Theorems about the operations -/

/-- The address loop adds one term per dimension entry to the running address. -/
theorem addressLoop_eq_sum (subscripts : Nat → Int) (dims : List CFI_dim_t) (j : Nat)
    (p : Int) :
    addressLoop subscripts dims j p
      = p + ∑ i in Finset.range dims.length,
          (subscripts (j + i) - (dims.getD i ⟨0, 0, 0⟩).lower_bound)
            * (dims.getD i ⟨0, 0, 0⟩).sm := by
  induction dims generalizing j p with
  | nil => simp [addressLoop]
  | cons d ds ih =>
    rw [addressLoop, ih, List.length_cons, Finset.sum_range_succ']
    have hshift : ∀ i : Nat, j + 1 + i = j + (i + 1) := fun i => by omega
    simp only [hshift, List.getD_cons_succ, List.getD_cons_zero, Nat.add_zero]
    ring

/-- C3: for an associated descriptor with `rank` dimension entries and any
subscripts, `CFI_address` returns
`base_addr + Σ_{i < rank} (subscripts[i] − dim[i].lower_bound) × dim[i].sm`;
no subscript is compared with the bounds. -/
theorem C3_address_formula (descriptor : CFI_cdesc_t) (subscripts : Nat → Int)
    (hassoc : descriptor.base_addr ≠ 0) (hdims : descriptor.dim.length = descriptor.rank) :
    CFI_address descriptor subscripts
      = Except.ok (descriptor.base_addr
          + ∑ i in Finset.range descriptor.rank,
              (subscripts i - (descriptor.dimAt i).lower_bound) * (descriptor.dimAt i).sm) := by
  unfold CFI_address
  rw [if_neg hassoc, addressLoop_eq_sum]
  have htake : descriptor.dim.take descriptor.rank = descriptor.dim := by
    rw [← hdims]; exact List.take_length _
  rw [htake, hdims]
  simp [CFI_cdesc_t.dimAt]

/-- C3 on the descriptor of Scenario A (rank 2, lower bounds (1,1), strides
(8,24)): subscripts (2,3) give `base_addr + 56`, and the out-of-range
subscripts (9,9) are not trapped. -/
theorem C3_address_formula_witness :
    scenarioA_allocated.base_addr ≠ 0
    ∧ scenarioA_allocated.dim.length = scenarioA_allocated.rank
    ∧ CFI_address scenarioA_allocated (ofList [2, 3])
        = Except.ok (scenarioA_allocated.base_addr + 56)
    ∧ CFI_address scenarioA_allocated (ofList [9, 9])
        = Except.ok (scenarioA_allocated.base_addr + 256) := by
  refine ⟨by decide, rfl, ?_, rfl⟩
  rw [C3_address_formula scenarioA_allocated (ofList [2, 3]) (by decide) rfl]
  rfl

/-- C6: when `CFI_deallocate` returns `CFI_SUCCESS`, the descriptor it leaves
has a null `base_addr`, and `CFI_deallocate` on that descriptor returns
`CFI_ERROR_BASE_ADDR_NULL` (11), changes nothing and releases nothing. -/
theorem C6_deallocate_twice (descriptor : CFI_cdesc_t)
    (hok : (CFI_deallocate descriptor).1 = CFI_SUCCESS) :
    (CFI_deallocate descriptor).2.1.base_addr = 0
    ∧ CFI_deallocate (CFI_deallocate descriptor).2.1
        = (CFI_ERROR_BASE_ADDR_NULL, (CFI_deallocate descriptor).2.1, none)
    ∧ CFI_ERROR_BASE_ADDR_NULL = 11 := by
  unfold CFI_deallocate at hok ⊢
  by_cases hnull : descriptor.base_addr = 0
  · rw [if_pos hnull] at hok
    exact absurd hok (show ¬ (CFI_ERROR_BASE_ADDR_NULL = CFI_SUCCESS) by decide)
  · by_cases hattr : descriptor.attribute_ ≠ CFI_attribute_allocatable
    · rw [if_neg hnull, if_pos hattr] at hok
      exact absurd hok (show ¬ (CFI_INVALID_ATTRIBUTE = CFI_SUCCESS) by decide)
    · rw [if_neg hnull, if_neg hattr]
      refine ⟨rfl, ?_, rfl⟩
      simp only [if_true]

/-- C6 on the allocated descriptor of Scenario A: the first call succeeds and
releases the block, the second fails with code 11. -/
theorem C6_deallocate_twice_witness :
    (CFI_deallocate scenarioA_allocated).1 = CFI_SUCCESS
    ∧ (CFI_deallocate scenarioA_allocated).2.1.base_addr = 0
    ∧ (CFI_deallocate (CFI_deallocate scenarioA_allocated).2.1).1 = 11
    ∧ (CFI_deallocate (CFI_deallocate scenarioA_allocated).2.1).2.1
        = (CFI_deallocate scenarioA_allocated).2.1 :=
  ⟨rfl, (C6_deallocate_twice scenarioA_allocated rfl).1,
    congrArg Prod.fst (C6_deallocate_twice scenarioA_allocated rfl).2.1,
    congrArg (fun r => r.2.1) (C6_deallocate_twice scenarioA_allocated rfl).2.1⟩

/-- The dimension loop of `CFI_allocate` writes as many entries as it is asked for. -/
theorem allocateDims_length (lower_bounds upper_bounds : Nat → Int) (n j : Nat) (sm : Int) :
    (allocateDims lower_bounds upper_bounds n j sm).length = n := by
  induction n generalizing j sm with
  | zero => rfl
  | succ n ih => simp [allocateDims, ih]

/-- Entry `i` written by the dimension loop of `CFI_allocate`: the stride is the
initial stride times the extents of the entries before it. -/
theorem allocateDims_getD (lower_bounds upper_bounds : Nat → Int) (n j : Nat) (sm : Int)
    (i : Nat) (hi : i < n) :
    (allocateDims lower_bounds upper_bounds n j sm).getD i ⟨0, 0, 0⟩
      = ⟨lower_bounds (j + i), max (upper_bounds (j + i) - lower_bounds (j + i) + 1) 0,
         sm * ∏ k in Finset.range i,
           max (upper_bounds (j + k) - lower_bounds (j + k) + 1) 0⟩ := by
  induction n generalizing j sm i with
  | zero => omega
  | succ n ih =>
    cases i with
    | zero => simp [allocateDims]
    | succ i =>
      have hshift : ∀ k : Nat, j + 1 + k = j + (k + 1) := fun k => by omega
      rw [allocateDims, List.getD_cons_succ, ih (j + 1) _ i (by omega),
        Finset.prod_range_succ']
      simp only [hshift, Nat.add_zero]
      congr 1
      ring

/-- The extents written by the dimension loop of `CFI_allocate` multiply to the
product of `max(upper − lower + 1, 0)` over the dimensions. -/
theorem allocateDims_extent_prod (lower_bounds upper_bounds : Nat → Int) (n j : Nat)
    (sm : Int) :
    ((allocateDims lower_bounds upper_bounds n j sm).map CFI_dim_t.extent).prod
      = ∏ k in Finset.range n, max (upper_bounds (j + k) - lower_bounds (j + k) + 1) 0 := by
  induction n generalizing j sm with
  | zero => rfl
  | succ n ih =>
    have hshift : ∀ k : Nat, j + 1 + k = j + (k + 1) := fun k => by omega
    rw [allocateDims, List.map_cons, List.prod_cons, ih, Finset.prod_range_succ']
    simp only [hshift, Nat.add_zero]
    ring

/-- C4: when `CFI_allocate` returns `CFI_SUCCESS`, the descriptor was
unassociated and allocatable, and afterwards it has `rank` dimension entries
with `lower_bound_i = lower_i`, `extent_i = max(upper_i − lower_i + 1, 0)`,
`sm_0 = elem_len` and `sm_{i+1} = sm_i × extent_i`; its `base_addr` is the
non-null block the allocator returned for a request of
`elem_len × Π_i extent_i` bytes. -/
theorem C4_allocate_bounds_strides (permitsZeroLen : Int → Bool)
    (allocator : Nat → Nat → Int) (descriptor : CFI_cdesc_t)
    (lower_bounds upper_bounds : Nat → Int) (elem_len : Nat)
    (hok : (CFI_allocate permitsZeroLen allocator descriptor lower_bounds upper_bounds
        elem_len).1 = CFI_SUCCESS) :
    descriptor.base_addr = 0
    ∧ descriptor.attribute_ = CFI_attribute_allocatable
    ∧ (CFI_allocate permitsZeroLen allocator descriptor lower_bounds upper_bounds
        elem_len).2.rank = descriptor.rank
    ∧ (CFI_allocate permitsZeroLen allocator descriptor lower_bounds upper_bounds
        elem_len).2.dim.length = descriptor.rank
    ∧ (∀ i : Nat, i < descriptor.rank →
        ((CFI_allocate permitsZeroLen allocator descriptor lower_bounds upper_bounds
            elem_len).2.dimAt i).lower_bound = lower_bounds i
        ∧ ((CFI_allocate permitsZeroLen allocator descriptor lower_bounds upper_bounds
            elem_len).2.dimAt i).extent = max (upper_bounds i - lower_bounds i + 1) 0)
    ∧ (0 < descriptor.rank →
        ((CFI_allocate permitsZeroLen allocator descriptor lower_bounds upper_bounds
            elem_len).2.dimAt 0).sm = (elem_len : Int))
    ∧ (∀ i : Nat, i + 1 < descriptor.rank →
        ((CFI_allocate permitsZeroLen allocator descriptor lower_bounds upper_bounds
            elem_len).2.dimAt (i + 1)).sm
          = ((CFI_allocate permitsZeroLen allocator descriptor lower_bounds upper_bounds
              elem_len).2.dimAt i).sm
            * ((CFI_allocate permitsZeroLen allocator descriptor lower_bounds upper_bounds
              elem_len).2.dimAt i).extent)
    ∧ (CFI_allocate permitsZeroLen allocator descriptor lower_bounds upper_bounds
        elem_len).2.base_addr
        = allocator descriptor.extra
            (elem_len * (∏ i in Finset.range descriptor.rank,
              max (upper_bounds i - lower_bounds i + 1) 0).toNat)
    ∧ (CFI_allocate permitsZeroLen allocator descriptor lower_bounds upper_bounds
        elem_len).2.base_addr ≠ 0
    ∧ ((elem_len * (∏ i in Finset.range descriptor.rank,
          max (upper_bounds i - lower_bounds i + 1) 0).toNat : Nat) : Int)
        = (elem_len : Int) * ∏ i in Finset.range descriptor.rank,
            max (upper_bounds i - lower_bounds i + 1) 0 := by
  have hprod : (0 : Int) ≤ ∏ i in Finset.range descriptor.rank,
      max (upper_bounds i - lower_bounds i + 1) 0 :=
    Finset.prod_nonneg (fun i _ => le_max_right _ _)
  have hcast : ((elem_len * (∏ i in Finset.range descriptor.rank,
        max (upper_bounds i - lower_bounds i + 1) 0).toNat : Nat) : Int)
      = (elem_len : Int) * ∏ i in Finset.range descriptor.rank,
          max (upper_bounds i - lower_bounds i + 1) 0 := by
    rw [Nat.cast_mul, Int.toNat_of_nonneg hprod]
  have hbytes : allocateBytes elem_len
      (allocateDims lower_bounds upper_bounds descriptor.rank 0 (elem_len : Int))
      = elem_len * (∏ i in Finset.range descriptor.rank,
          max (upper_bounds i - lower_bounds i + 1) 0).toNat := by
    unfold allocateBytes
    rw [allocateDims_extent_prod]
    simp only [Nat.zero_add]
  unfold CFI_allocate at hok ⊢
  by_cases hnull : descriptor.base_addr ≠ 0
  · rw [if_pos hnull] at hok
    exact absurd hok (show ¬ (CFI_ERROR_BASE_ADDR_NOT_NULL = CFI_SUCCESS) by decide)
  · rw [if_neg hnull] at hok ⊢
    by_cases hattr : descriptor.attribute_ ≠ CFI_attribute_allocatable
    · rw [if_pos hattr] at hok
      exact absurd hok (show ¬ (CFI_INVALID_ATTRIBUTE = CFI_SUCCESS) by decide)
    · rw [if_neg hattr] at hok ⊢
      by_cases hlen : elem_len = 0 ∧ permitsZeroLen descriptor.type = false
      · rw [if_pos hlen] at hok
        exact absurd hok (show ¬ (CFI_INVALID_ELEM_LEN = CFI_SUCCESS) by decide)
      · rw [if_neg hlen] at hok ⊢
        simp only [hbytes] at hok ⊢
        by_cases hmem : allocator descriptor.extra
            (elem_len * (∏ i in Finset.range descriptor.rank,
              max (upper_bounds i - lower_bounds i + 1) 0).toNat) = 0
        · rw [if_pos hmem] at hok
          exact absurd hok (show ¬ (CFI_ERROR_MEM_ALLOCATION = CFI_SUCCESS) by decide)
        · rw [if_neg hmem]
          refine ⟨not_not.mp hnull, not_not.mp hattr, rfl, allocateDims_length _ _ _ _ _,
            ?_, ?_, ?_, rfl, hmem, hcast⟩
          · intro i hi
            simp only [CFI_cdesc_t.dimAt]
            rw [allocateDims_getD _ _ _ _ _ i hi]
            simp
          · intro hpos
            simp only [CFI_cdesc_t.dimAt]
            rw [allocateDims_getD _ _ _ _ _ 0 hpos]
            simp
          · intro i hi
            simp only [CFI_cdesc_t.dimAt]
            rw [allocateDims_getD _ _ _ _ _ (i + 1) hi,
              allocateDims_getD _ _ _ _ _ i (by omega), Finset.prod_range_succ]
            simp only [Nat.zero_add]
            ring

/-- C4 on Scenario A: rank 2, lower bounds (1,1), upper bounds (3,4) and
element length 8 give extents (3,4), strides (8,24) and a request of 96 bytes. -/
theorem C4_allocate_bounds_strides_witness :
    (CFI_allocate (fun _ => false) scenarioAllocator scenarioA_unallocated
        (ofList [1, 1]) (ofList [3, 4]) 8).1 = CFI_SUCCESS
    ∧ (CFI_allocate (fun _ => false) scenarioAllocator scenarioA_unallocated
        (ofList [1, 1]) (ofList [3, 4]) 8).2.dim = [⟨1, 3, 8⟩, ⟨1, 4, 24⟩]
    ∧ (CFI_allocate (fun _ => false) scenarioAllocator scenarioA_unallocated
        (ofList [1, 1]) (ofList [3, 4]) 8).2.base_addr
        = scenarioAllocator scenarioA_unallocated.extra
            (8 * (∏ i in Finset.range scenarioA_unallocated.rank,
              max (ofList [3, 4] i - ofList [1, 1] i + 1) 0).toNat)
    ∧ 8 * (∏ i in Finset.range scenarioA_unallocated.rank,
              max (ofList [3, 4] i - ofList [1, 1] i + 1) 0).toNat = 96
    ∧ (CFI_allocate (fun _ => false) scenarioAllocator scenarioA_unallocated
        (ofList [1, 1]) (ofList [3, 4]) 8).2 = scenarioA_allocated :=
  ⟨rfl, rfl,
    (C4_allocate_bounds_strides (fun _ => false) scenarioAllocator scenarioA_unallocated
      (ofList [1, 1]) (ofList [3, 4]) 8 rfl).2.2.2.2.2.2.2.1,
    by decide, rfl⟩

end ISOFortranBinding
